import Mathlib

/-!
Shallow embedding of the tick-to-signal processing pipeline of
`services/processing_engine.py` (class `ProcessingEngine`) together with the
signal broadcaster filter of `main.py`, and proofs of the specified
properties.

Conventions of the embedding:
- Python floats become `ℚ`; integer tokens become `ℕ`.
- Wall-clock instants (`datetime.now(ist)`) are modelled at minute
  resolution as `ℕ` = minutes since an epoch; the time of day used by the
  opening-range window checks is `now % 1440`, and the minute-aligned bar
  timestamp `current_bar_timestamp` is `now` itself.
- The per-token dictionaries (`data_store`, `scan_results`,
  `opening_ranges`, `index_data`) become functions `ℕ → Option _`.
- A pandas DataFrame indexed by timestamp becomes an association list
  `List (ℕ × Bar)` in insertion order (`iloc[-1]` = last element;
  `ts in df.index` = key membership; `df.loc[ts] = ...` appends).
- The asynchronous historical-candle fetch of
  `get_opening_range_retroactively` is an oracle carried on the tick:
  `Tick.fetch = none` models a failed/empty `getCandleData` response
  (status false, empty data, or an exception), `some rows` a successful
  response whose rows carry (high, low) in paise.
- `None`-able tick fields are `Option _`; the first element of the
  best-five book arrays is `Option ℚ` (the price field, `none` when the
  entry or its price is missing, mapped to `0.0` as in
  `_safe_get_best_price`).
-/

namespace Scanner

/-- One row of a per-instrument minute-bar DataFrame
(`columns=["open", "high", "low", "close", "volume", "last_volume"]`). -/
structure Bar where
  open' : ℚ
  high : ℚ
  low : ℚ
  close : ℚ
  volume : ℚ
  last_volume : ℚ
deriving Repr, DecidableEq

/-- An entry of `settings.TOKEN_MAP`: per-instrument static info. -/
structure StockInfo where
  symbol : Option String
  bias : Option String
deriving Repr, DecidableEq

/-- A published signal, as stored in `scan_results[token]`. -/
structure Signal where
  symbol : Option String
  score : ℤ
  price : ℚ
  bias : Option String
deriving Repr, DecidableEq

/-- An opening range `{"high": _, "low": _}` as stored in `opening_ranges`. -/
structure OpeningRange where
  high : ℚ
  low : ℚ
deriving Repr, DecidableEq

/-- An entry of `index_data`. -/
structure IndexData where
  name : String
  ltp : ℚ
  change : ℚ
  percent_change : ℚ
deriving Repr, DecidableEq

/-- The parts of `core/config.py`'s `Settings` that the engine reads. -/
structure Settings where
  TOKEN_MAP : ℕ → Option StockInfo
  INDEX_TOKENS : ℕ → Option String

/-- A decoded tick from `websocket_client.data_queue`, plus the wall clock
minute at which the loop processes it and the oracle for the retroactive
candle fetch. -/
structure Tick where
  token : Option ℕ
  last_traded_price : Option ℚ
  open_price_of_the_day : Option ℚ
  volume_trade_for_the_day : Option ℚ
  best_5_buy_price_and_quantity : List (Option ℚ)
  best_5_sell_price_and_quantity : List (Option ℚ)
  now : ℕ
  fetch : Option (List (ℚ × ℚ))

/-- The mutable state of `ProcessingEngine`. -/
structure EngineState where
  data_store : ℕ → Option (List (ℕ × Bar))
  scan_results : ℕ → Option Signal
  opening_ranges : ℕ → Option OpeningRange
  index_data : ℕ → Option IndexData

/-- `ProcessingEngine.__init__`: all four dictionaries start empty. -/
def initState : EngineState :=
  { data_store := fun _ => none
    scan_results := fun _ => none
    opening_ranges := fun _ => none
    index_data := fun _ => none }

/-- Point update of a token-keyed map (`d[token] = v`). -/
def setMap {α : Type} (m : ℕ → Option α) (k : ℕ) (v : α) : ℕ → Option α :=
  fun t => if t = k then some v else m t

/-- Point removal from a token-keyed map (`d.pop(token, None)`). -/
def popMap {α : Type} (m : ℕ → Option α) (k : ℕ) : ℕ → Option α :=
  fun t => if t = k then none else m t

/-- `ProcessingEngine._safe_get_best_price`: first price of a best-five
array, or `0`. -/
def safe_get_best_price (arr : List (Option ℚ)) : ℚ :=
  match arr with
  | [] => 0
  | first :: _ => first.getD 0

/-- `df["last_volume"].iloc[-1] if not df.empty else 0.0`. -/
def dfLastLastVolume (df : List (ℕ × Bar)) : ℚ :=
  match df.getLast? with
  | none => 0
  | some r => r.2.last_volume

/-- `current_bar_timestamp in df.index`. -/
def dfContains (df : List (ℕ × Bar)) (ts : ℕ) : Bool :=
  df.any (fun r => r.1 == ts)

/-- In-place update of the row keyed `ts` (`df.at[ts, col] = ...`). -/
def dfUpdate (df : List (ℕ × Bar)) (ts : ℕ) (f : Bar → Bar) : List (ℕ × Bar) :=
  df.map (fun r => if r.1 = ts then (r.1, f r.2) else r)

/-- The bar-aggregation block of `start_processing_loop` (lines 199-215):
volume delta against the last stored cumulative volume, clamped at zero,
then either a fresh bar or an in-place aggregate update. -/
def applyTickToDf (df : List (ℕ × Bar)) (ts : ℕ) (price cumulative_volume : ℚ) :
    List (ℕ × Bar) :=
  let last_total_volume := dfLastLastVolume df
  let minute_volume := max (cumulative_volume - last_total_volume) 0
  if dfContains df ts then
    dfUpdate df ts (fun row =>
      { open' := row.open'
        high := max row.high price
        low := min row.low price
        close := price
        volume := row.volume + minute_volume
        last_volume := cumulative_volume })
  else
    df ++ [(ts, { open' := price, high := price, low := price, close := price,
                  volume := minute_volume, last_volume := cumulative_volume })]

/-- `ProcessingEngine.get_opening_range_retroactively`: on a successful
candle-data response, range = {max of high/100, min of low/100} over the
rows; on failure (no status, no data, or an exception) fall back to
{day's open, day's open}. -/
def get_opening_range_retroactively (fetch : Option (List (ℚ × ℚ)))
    (open_price_of_day : ℚ) : OpeningRange :=
  match fetch with
  | some (b :: bs) =>
      { high := (bs.map (fun r => r.1 / 100)).foldl max (b.1 / 100)
        low := (bs.map (fun r => r.2 / 100)).foldl min (b.2 / 100) }
  | _ => { high := open_price_of_day, low := open_price_of_day }

/-! ### Indicators (`ta.momentum.rsi`, `ta.trend.MACD`, `_compute_vwap_per_day`)

A pandas series with NaN holes is a `List (Option ℚ)`.  `ewm(...,
adjust=False, min_periods=m).mean()` is the first-order recursion
`y' = (1-α)·y + α·x` started at the first non-NaN observation, with the
output masked (`none`) until `m` observations have been seen; the series
this engine feeds it only ever have leading NaNs. -/

/-- Worker for `ewm(adjust=False, min_periods).mean()`: carries the
running value and the count of observations seen. -/
def ewmGo (alpha : ℚ) (min_periods : ℕ) :
    Option ℚ → ℕ → List (Option ℚ) → List (Option ℚ)
  | _, _, [] => []
  | y, cnt, none :: xs =>
      (if min_periods ≤ cnt then y else none) :: ewmGo alpha min_periods y cnt xs
  | y, cnt, some x :: xs =>
      let y' := match y with
        | none => x
        | some p => (1 - alpha) * p + alpha * x
      (if min_periods ≤ cnt + 1 then some y' else none) ::
        ewmGo alpha min_periods (some y') (cnt + 1) xs

/-- `series.ewm(alpha, min_periods, adjust=False).mean()`. -/
def ewmMean (alpha : ℚ) (min_periods : ℕ) (xs : List (Option ℚ)) : List (Option ℚ) :=
  ewmGo alpha min_periods none 0 xs

/-- `series.diff(1)`: NaN first element, then successive differences. -/
def diffGo : ℚ → List ℚ → List (Option ℚ)
  | _, [] => []
  | prev, x :: xs => some (x - prev) :: diffGo x xs

/-- `series.diff(1)`. -/
def diffSeries : List ℚ → List (Option ℚ)
  | [] => []
  | x :: xs => none :: diffGo x xs

/-- `ta.momentum.rsi(close, window)`: Wilder smoothing of up/down moves
(`ewm(alpha=1/window, min_periods=window, adjust=False)`), then
`100 - 100/(1+rs)`; all-zero smoothed moves give NaN (0/0), zero
down-moves with nonzero up-moves give 100. -/
def rsiSeries (window : ℕ) (closes : List ℚ) : List (Option ℚ) :=
  let d := diffSeries closes
  let up := d.map (Option.map (fun x => if 0 < x then x else 0))
  let dn := d.map (Option.map (fun x => if x < 0 then -x else 0))
  let emaup := ewmMean (1 / (window : ℚ)) window up
  let emadn := ewmMean (1 / (window : ℚ)) window dn
  List.zipWith (fun u v =>
    match u, v with
    | some u', some d' =>
        if d' = 0 then (if u' = 0 then none else some 100)
        else some (100 - 100 / (1 + u' / d'))
    | _, _ => none) emaup emadn

/-- The MACD line of `ta.trend.MACD(close)` with default windows 12/26:
difference of the two span-EMAs, each masked for its own warm-up. -/
def macdLine (closes : List ℚ) : List (Option ℚ) :=
  let ema_fast := ewmMean (2 / (12 + 1)) 12 (closes.map some)
  let ema_slow := ewmMean (2 / (26 + 1)) 26 (closes.map some)
  List.zipWith (fun a b =>
    match a, b with
    | some a', some b' => some (a' - b')
    | _, _ => none) ema_fast ema_slow

/-- The MACD signal line: 9-period span-EMA of the MACD line. -/
def macdSignalLine (closes : List ℚ) : List (Option ℚ) :=
  ewmMean (2 / (9 + 1)) 9 (macdLine closes)

/-- Worker for `_compute_vwap_per_day`: cumulative typical·volume over
cumulative volume, both reset whenever the calendar day of the timestamp
changes (`ts / 1440`); a zero cumulative volume gives NaN. -/
def vwapGo : Option ℕ → ℚ → ℚ → List (ℕ × Bar) → List (Option ℚ)
  | _, _, _, [] => []
  | day, cpv, cvol, (ts, b) :: rest =>
      let d := ts / 1440
      let cpv0 := if day = some d then cpv else 0
      let cvol0 := if day = some d then cvol else 0
      let typical := (b.high + b.low + b.close) / 3
      let cpv' := cpv0 + typical * b.volume
      let cvol' := cvol0 + b.volume
      (if cvol' = 0 then none else some (cpv' / cvol')) :: vwapGo (some d) cpv' cvol' rest

/-- `ProcessingEngine._compute_vwap_per_day` on a sorted bar list. -/
def vwapPerDay (rows : List (ℕ × Bar)) : List (Option ℚ) :=
  vwapGo none 0 0 rows

/-- Insertion step of `sort_index` (stable for the duplicate-free keys the
engine produces). -/
def insertByKey (r : ℕ × Bar) : List (ℕ × Bar) → List (ℕ × Bar)
  | [] => [r]
  | x :: xs => if r.1 < x.1 then r :: x :: xs else x :: insertByKey r xs

/-- `df.sort_index()`. -/
def sort_index : List (ℕ × Bar) → List (ℕ × Bar)
  | [] => []
  | x :: xs => insertByKey x (sort_index xs)

/-- A row surviving `calc_df.dropna()`: close plus the four indicator
values, all defined. -/
structure IndRow where
  close : ℚ
  rsi : ℚ
  macd : ℚ
  macd_signal : ℚ
  vwap : ℚ
deriving Repr, DecidableEq

/-- `calc_df.dropna()`: keep the rows where every indicator is defined
(the OHLCV columns are always defined). -/
def collectRows : List ℚ → List (Option ℚ) → List (Option ℚ) → List (Option ℚ) →
    List (Option ℚ) → List IndRow
  | c :: cs, r :: rs, m :: ms, g :: gs, v :: vs =>
      (match r, m, g, v with
       | some r', some m', some g', some v' =>
           [({ close := c, rsi := r', macd := m', macd_signal := g', vwap := v' } : IndRow)]
       | _, _, _, _ => []) ++ collectRows cs rs ms gs vs
  | _, _, _, _, _ => []

/-- Lines 76-92 of `calculate_final_score`: sort chronologically, compute
RSI(14), MACD(12, 26, 9) and per-day VWAP over the closes, and drop the
rows lacking any indicator. -/
def indicator_rows (df : List (ℕ × Bar)) : List IndRow :=
  let sorted := sort_index df
  let closes := sorted.map (fun r => r.2.close)
  collectRows closes (rsiSeries 14 closes) (macdLine closes) (macdSignalLine closes)
    (vwapPerDay sorted)

/-- `ProcessingEngine.calculate_final_score`: 0 when the token has no
DataFrame or fewer than 30 bars; 0 when fewer than 2 rows survive
`dropna`; otherwise the additive 40/40/20 combination of the RSI, MACD
cross and VWAP conditions for the token's bias, 0 for any other bias. -/
def calculate_final_score (st : Settings) (data_store : ℕ → Option (List (ℕ × Bar)))
    (token : ℕ) : ℤ :=
  match data_store token with
  | none => 0
  | some df =>
    if df.length < 30 then 0
    else
      let bias := (st.TOKEN_MAP token).bind (fun i => i.bias)
      let temp_df := indicator_rows df
      if temp_df.length < 2 then 0
      else
        match temp_df.reverse with
        | last_row :: prev_row :: _ =>
            if bias = some "Bullish" then
              (if last_row.rsi > 65 then 40 else 0)
              + (if prev_row.macd < prev_row.macd_signal ∧
                    last_row.macd > last_row.macd_signal then 40 else 0)
              + (if last_row.close > last_row.vwap then 20 else 0)
            else if bias = some "Bearish" then
              (if last_row.rsi < 35 then 40 else 0)
              + (if prev_row.macd > prev_row.macd_signal ∧
                    last_row.macd < last_row.macd_signal then 40 else 0)
              + (if last_row.close < last_row.vwap then 20 else 0)
            else 0
        | _ => 0

/-- The engine state after the bar-aggregation block (lines 192-215): the
token's DataFrame is created if absent and updated by `applyTickToDf`;
nothing else changes. -/
def aggState (s : EngineState) (token : ℕ) (now : ℕ) (price cumulative_volume : ℚ) :
    EngineState :=
  let df' := applyTickToDf ((s.data_store token).getD []) now price cumulative_volume
  { s with data_store := setMap s.data_store token df' }

/-- The spread formula of line 224:
`((ask - bid) / price) * 100 if price > 0 else 0`. -/
def spread_percentage (bid ask price : ℚ) : ℚ :=
  if price > 0 then (ask - bid) / price * 100 else 0

/-- The breakout decision of lines 250-255: a Bullish bias breaks out
above the range high, a Bearish bias below the range low, and any other
bias never breaks out. -/
def is_breakout (bias : Option String) (price : ℚ) (orb : OpeningRange) : Bool :=
  if bias = some "Bullish" ∧ price > orb.high then true
  else if bias = some "Bearish" ∧ price < orb.low then true
  else false

/-- `time(9, 15)` in minutes of the day. -/
def opening_range_start : ℕ := 9 * 60 + 15

/-- `time(9, 30)` in minutes of the day. -/
def opening_range_end : ℕ := 9 * 60 + 30

/-- The body of `start_processing_loop` after the required-field check,
for a tick whose four required fields are present. -/
def processValidTick (st : Settings) (s : EngineState) (tick : Tick) (token : ℕ)
    (ltp open_price_day cumulative_volume : ℚ) : EngineState :=
  let now := tick.now
  let now_time := now % 1440
  let price := ltp / 100
  match st.INDEX_TOKENS token with
  | some name =>
      let opening := open_price_day / 100
      let change := price - opening
      let percent_change := if opening > 0 then change / opening * 100 else 0
      let entry : IndexData :=
        { name := name, ltp := price, change := change, percent_change := percent_change }
      { s with index_data := setMap s.index_data token entry }
  | none =>
      let s1 : EngineState := aggState s token now price cumulative_volume
      let best_bid := safe_get_best_price tick.best_5_buy_price_and_quantity
      let best_ask := safe_get_best_price tick.best_5_sell_price_and_quantity
      if best_bid = 0 ∨ best_ask = 0 then s1
      else
        let bid := best_bid / 100
        let ask := best_ask / 100
        if spread_percentage bid ask price > 0.5 then
          { s1 with scan_results := popMap s1.scan_results token }
        else if opening_range_start ≤ now_time ∧ now_time < opening_range_end then
          match s1.opening_ranges token with
          | none =>
              let seeded : OpeningRange := { high := price, low := price }
              { s1 with opening_ranges := setMap s1.opening_ranges token seeded }
          | some orb =>
              let widened : OpeningRange :=
                { high := max orb.high price, low := min orb.low price }
              { s1 with opening_ranges := setMap s1.opening_ranges token widened }
        else if opening_range_end ≤ now_time then
          let stock_info := st.TOKEN_MAP token
          let symbol := stock_info.bind (fun i => i.symbol)
          let retro := get_opening_range_retroactively tick.fetch (open_price_day / 100)
          let s2 : EngineState :=
            if (s1.opening_ranges token).isSome then s1
            else { s1 with opening_ranges := setMap s1.opening_ranges token retro }
          match s2.opening_ranges token with
          | none => s2
          | some orb =>
              let bias := stock_info.bind (fun i => i.bias)
              if is_breakout bias price orb then
                let final_score := 100 + calculate_final_score st s2.data_store token
                let sig : Signal :=
                  { symbol := symbol, score := final_score, price := price, bias := bias }
                { s2 with scan_results := setMap s2.scan_results token sig }
              else
                { s2 with scan_results := popMap s2.scan_results token }
        else s1

/-- One iteration of `start_processing_loop` on one tick: drop the tick
when a required field is missing, otherwise run the loop body. -/
def processTick (st : Settings) (s : EngineState) (tick : Tick) : EngineState :=
  match tick.token, tick.last_traded_price, tick.open_price_of_the_day,
      tick.volume_trade_for_the_day with
  | some token, some ltp, some open_price_day, some cumulative_volume =>
      processValidTick st s tick token ltp open_price_day cumulative_volume
  | _, _, _, _ => s

/-- Running the loop over a finite queue of ticks. -/
def processTicks (st : Settings) (s : EngineState) (ticks : List Tick) : EngineState :=
  ticks.foldl (processTick st) s

/-- The broadcaster's filter in `main.py`
(`s.get("score", 0) > 0`, line 75-76). -/
def score_filter (sig : Signal) : Bool :=
  0 < sig.score

/-- The OHLC/volume bounds of a well-formed bar (spec section 3,
"Bar" invariants). -/
def barInv (b : Bar) : Prop :=
  b.low ≤ min b.open' b.close ∧ max b.open' b.close ≤ b.high ∧ 0 ≤ b.volume

/-- Folding a whole sequence of (minute timestamp, price, cumulative
volume) ticks into one instrument's bar store, starting from a given
store. -/
def applyTicks (df : List (ℕ × Bar)) (ticks : List (ℕ × ℚ × ℚ)) : List (ℕ × Bar) :=
  ticks.foldl (fun d t => applyTickToDf d t.1 t.2.1 t.2.2) df

/-! ### Concrete data for the closed-form checks -/

/-- Example settings: token 1 is the Bullish stock "ABC", nothing is an
index token. -/
def stX : Settings :=
  { TOKEN_MAP := fun t => if t = 1 then some ⟨some "ABC", some "Bullish"⟩ else none
    INDEX_TOKENS := fun _ => none }

/-- A state whose token 1 already holds the closed opening range
{high 100, low 95}. -/
def sW1 : EngineState :=
  { initState with opening_ranges := fun t => if t = 1 then some ⟨100, 95⟩ else none }

/-- A post-window tick for token 1: price 105, day open 100, tight book
104.90/105.00, processed at 10:00 IST (minute 600 of the day). -/
def tW1 : Tick :=
  ⟨some 1, some 10500, some 10000, some 10, [some 10490], [some 10500], 600, none⟩

/-- A post-window tick like `tW1` but with a wide book 100.00/102.00
(spread 1.9 percent of price 105). -/
def tWide : Tick :=
  ⟨some 1, some 10500, some 10000, some 10, [some 10000], [some 10200], 600, none⟩

/-- An in-window tick (processed at 09:16 IST, minute 556) for token 1 at
price 105 with the wide book of `tWide`. -/
def tC6 : Tick :=
  ⟨some 1, some 10500, some 10000, some 10, [some 10000], [some 10200], 556, none⟩

/-- An in-window tick at 09:16 IST for token 1 at price 105 with the
tight book of `tW1`. -/
def tC6ok : Tick :=
  ⟨some 1, some 10500, some 10000, some 10, [some 10490], [some 10500], 556, none⟩

/-- A state whose token 1 holds the collecting range {high 100, low 100}. -/
def sC6 : EngineState :=
  { initState with opening_ranges := fun t => if t = 1 then some ⟨100, 100⟩ else none }

/-- A malformed tick: the last traded price is missing. -/
def tBad : Tick :=
  ⟨some 1, none, some 10000, some 10, [some 10490], [some 10500], 600, none⟩

/-- A bar store holding the empty DataFrame for token 1. -/
def dsA : ℕ → Option (List (ℕ × Bar)) := fun t => if t = 1 then some [] else none

/-- A bar store holding the empty DataFrame for every token; agrees with
`dsA` at token 1 and differs elsewhere. -/
def dsB : ℕ → Option (List (ℕ × Bar)) := fun _ => some []

/-- Two ticks in the same minute whose cumulative volume decreases from
50 to 30. -/
def ticks0 : List (ℕ × ℚ × ℚ) := [(0, 100, 50), (0, 90, 30)]

/-- The bar `ticks0` produces: the volume delta of the second tick is
clamped to 0, so the bar keeps volume 50. -/
def barW : Bar := ⟨100, 100, 90, 90, 50, 30⟩

/-- The signal a first post-window breakout tick produces from the
initial state (confirmation score 0: only one bar accumulated). -/
def sigW : Signal := ⟨some "ABC", 100, 105, some "Bullish"⟩

/-! ### Branch evaluation lemmas for `processTick`

Each lemma characterises one exit of the loop body of
`start_processing_loop` under the hypotheses that select that exit. -/

/-- Reading a token-keyed map at the key just written. -/
theorem setMap_same {α : Type} (m : ℕ → Option α) (k : ℕ) (v : α) :
    setMap m k v k = some v := by
  simp [setMap]

/-- Reading a token-keyed map at the key just removed. -/
theorem popMap_same {α : Type} (m : ℕ → Option α) (k : ℕ) : popMap m k k = none := by
  simp [popMap]

theorem window_seed_eval (st : Settings) (s : EngineState) (tok : ℕ)
    (ltp od cv : ℚ) (b5 s5 : List (Option ℚ)) (now : ℕ) (f : Option (List (ℚ × ℚ)))
    (hidx : st.INDEX_TOKENS tok = none)
    (hbb : safe_get_best_price b5 ≠ 0) (hba : safe_get_best_price s5 ≠ 0)
    (hsp : ¬ spread_percentage (safe_get_best_price b5 / 100) (safe_get_best_price s5 / 100)
      (ltp / 100) > 0.5)
    (hwin : opening_range_start ≤ now % 1440 ∧ now % 1440 < opening_range_end)
    (horb : s.opening_ranges tok = none) :
    processTick st s ⟨some tok, some ltp, some od, some cv, b5, s5, now, f⟩ =
      { aggState s tok now (ltp / 100) cv with
        opening_ranges := setMap s.opening_ranges tok ⟨ltp / 100, ltp / 100⟩ } := by
  show processValidTick st s ⟨some tok, some ltp, some od, some cv, b5, s5, now, f⟩
      tok ltp od cv = _
  simp only [processValidTick, aggState, hidx, hbb, hba, hsp, hwin.1, hwin.2, horb, and_self,
    not_false_eq_true, or_self, or_false, false_or, if_false, if_true, ite_true, ite_false]

theorem window_widen_eval (st : Settings) (s : EngineState) (tok : ℕ)
    (ltp od cv : ℚ) (b5 s5 : List (Option ℚ)) (now : ℕ) (f : Option (List (ℚ × ℚ)))
    (orb : OpeningRange)
    (hidx : st.INDEX_TOKENS tok = none)
    (hbb : safe_get_best_price b5 ≠ 0) (hba : safe_get_best_price s5 ≠ 0)
    (hsp : ¬ spread_percentage (safe_get_best_price b5 / 100) (safe_get_best_price s5 / 100)
      (ltp / 100) > 0.5)
    (hwin : opening_range_start ≤ now % 1440 ∧ now % 1440 < opening_range_end)
    (horb : s.opening_ranges tok = some orb) :
    processTick st s ⟨some tok, some ltp, some od, some cv, b5, s5, now, f⟩ =
      { aggState s tok now (ltp / 100) cv with
        opening_ranges := setMap s.opening_ranges tok
          ⟨max orb.high (ltp / 100), min orb.low (ltp / 100)⟩ } := by
  show processValidTick st s ⟨some tok, some ltp, some od, some cv, b5, s5, now, f⟩
      tok ltp od cv = _
  simp only [processValidTick, aggState, hidx, hbb, hba, hsp, hwin.1, hwin.2, horb, and_self,
    not_false_eq_true, or_self, or_false, false_or, if_false, if_true, ite_true, ite_false]

theorem retro_eval (st : Settings) (s : EngineState) (tok : ℕ)
    (ltp od cv : ℚ) (b5 s5 : List (Option ℚ)) (now : ℕ) (f : Option (List (ℚ × ℚ)))
    (hidx : st.INDEX_TOKENS tok = none)
    (hbb : safe_get_best_price b5 ≠ 0) (hba : safe_get_best_price s5 ≠ 0)
    (hsp : ¬ spread_percentage (safe_get_best_price b5 / 100) (safe_get_best_price s5 / 100)
      (ltp / 100) > 0.5)
    (hwin : opening_range_end ≤ now % 1440)
    (horb : s.opening_ranges tok = none) :
    processTick st s ⟨some tok, some ltp, some od, some cv, b5, s5, now, f⟩ =
      (let orb := get_opening_range_retroactively f (od / 100)
       let s2 : EngineState :=
         { aggState s tok now (ltp / 100) cv with
           opening_ranges := setMap s.opening_ranges tok orb }
       let bias := (st.TOKEN_MAP tok).bind (fun i => i.bias)
       if is_breakout bias (ltp / 100) orb then
         let sig : Signal :=
           { symbol := (st.TOKEN_MAP tok).bind (fun i => i.symbol),
             score := 100 + calculate_final_score st s2.data_store tok,
             price := ltp / 100, bias := bias }
         { s2 with scan_results := setMap s2.scan_results tok sig }
       else { s2 with scan_results := popMap s2.scan_results tok }) := by
  have hnw : ¬ (opening_range_start ≤ now % 1440 ∧ now % 1440 < opening_range_end) := by
    rintro ⟨-, h2⟩
    simp only [opening_range_start, opening_range_end] at h2 hwin
    omega
  show processValidTick st s ⟨some tok, some ltp, some od, some cv, b5, s5, now, f⟩
      tok ltp od cv = _
  simp only [processValidTick, aggState, hidx, hbb, hba, hsp, hnw, hwin, horb,
    not_false_eq_true, or_self, or_false, false_or, if_false, if_true, ite_true, ite_false,
    Option.isSome_none, Bool.false_eq_true, setMap, popMap]

theorem opening_ranges_cases (st : Settings) (s : EngineState) (tick : Tick) (tok : ℕ) :
    (processTick st s tick).opening_ranges tok = s.opening_ranges tok ∨
    (tick.token = some tok ∧
      (tick.now % 1440 < opening_range_end ∨ s.opening_ranges tok = none)) := by
  obtain ⟨tk, lp, od, cv, b5, s5, now, f⟩ := tick
  unfold processTick
  rcases tk with _ | tk
  · exact Or.inl rfl
  rcases lp with _ | lp
  · exact Or.inl rfl
  rcases od with _ | od
  · exact Or.inl rfl
  rcases cv with _ | cv
  · exact Or.inl rfl
  unfold processValidTick
  dsimp only
  split
  · exact Or.inl rfl
  split
  · exact Or.inl rfl
  split
  · exact Or.inl rfl
  split
  · next hw =>
    split
    · by_cases h : tok = tk
      · subst h
        exact Or.inr ⟨rfl, Or.inl hw.2⟩
      · left
        simp [aggState, setMap, h]
    · by_cases h : tok = tk
      · subst h
        exact Or.inr ⟨rfl, Or.inl hw.2⟩
      · left
        simp [aggState, setMap, h]
  · split
    · next hpost =>
      by_cases h : tok = tk
      · subst h
        rcases horb : s.opening_ranges tok with _ | o
        · exact Or.inr ⟨rfl, Or.inr rfl⟩
        · left
          have hs : ((aggState s tok now (lp / 100) cv).opening_ranges tok).isSome = true := by
            simp [aggState, horb]
          simp only [hs, if_true, ite_true, aggState, horb, Option.isSome_some]
          split <;> exact horb
      · left
        split
        · split <;> simp [aggState, setMap, h]
        · split <;> split <;> simp [aggState, setMap, h]
    · exact Or.inl rfl




theorem spread_gate_eval (st : Settings) (s : EngineState) (tok : ℕ)
    (ltp od cv : ℚ) (b5 s5 : List (Option ℚ)) (now : ℕ) (f : Option (List (ℚ × ℚ)))
    (hidx : st.INDEX_TOKENS tok = none)
    (hbb : safe_get_best_price b5 ≠ 0) (hba : safe_get_best_price s5 ≠ 0)
    (hsp : spread_percentage (safe_get_best_price b5 / 100) (safe_get_best_price s5 / 100)
      (ltp / 100) > 0.5) :
    processTick st s ⟨some tok, some ltp, some od, some cv, b5, s5, now, f⟩ =
      { aggState s tok now (ltp / 100) cv with
        scan_results := popMap s.scan_results tok } := by
  show processValidTick st s ⟨some tok, some ltp, some od, some cv, b5, s5, now, f⟩
      tok ltp od cv = _
  simp only [processValidTick, aggState, hidx, hbb, hba, hsp, if_pos, if_neg, or_self,
    not_false_eq_true, or_false, false_or, if_false, if_true]

theorem postOrb_eval (st : Settings) (s : EngineState) (tok : ℕ)
    (ltp od cv : ℚ) (b5 s5 : List (Option ℚ)) (now : ℕ) (f : Option (List (ℚ × ℚ)))
    (orb : OpeningRange)
    (hidx : st.INDEX_TOKENS tok = none)
    (hbb : safe_get_best_price b5 ≠ 0) (hba : safe_get_best_price s5 ≠ 0)
    (hsp : ¬ spread_percentage (safe_get_best_price b5 / 100) (safe_get_best_price s5 / 100)
      (ltp / 100) > 0.5)
    (hwin : opening_range_end ≤ now % 1440)
    (horb : s.opening_ranges tok = some orb) :
    processTick st s ⟨some tok, some ltp, some od, some cv, b5, s5, now, f⟩ =
      (let s1 : EngineState := aggState s tok now (ltp / 100) cv
       let bias := (st.TOKEN_MAP tok).bind (fun i => i.bias)
       if is_breakout bias (ltp / 100) orb then
         let sig : Signal :=
           { symbol := (st.TOKEN_MAP tok).bind (fun i => i.symbol),
             score := 100 + calculate_final_score st s1.data_store tok,
             price := ltp / 100, bias := bias }
         { s1 with scan_results := setMap s1.scan_results tok sig }
       else { s1 with scan_results := popMap s1.scan_results tok }) := by
  have hnw : ¬ (opening_range_start ≤ now % 1440 ∧ now % 1440 < opening_range_end) := by
    rintro ⟨-, h2⟩
    simp only [opening_range_start, opening_range_end] at h2 hwin
    omega
  show processValidTick st s ⟨some tok, some ltp, some od, some cv, b5, s5, now, f⟩
      tok ltp od cv = _
  simp only [processValidTick, hidx, hbb, hba, hsp, hnw, hwin, Option.isSome_some,
    not_false_eq_true, or_self, or_false, false_or, if_false, if_true, ite_true, ite_false]
  simp only [aggState, setMap, popMap, horb, Option.isSome_some, if_true, ite_true]

theorem scan_results_cases (st : Settings) (s : EngineState) (tick : Tick) (tok : ℕ)
    (sig : Signal)
    (h : (processTick st s tick).scan_results tok = some sig) :
    s.scan_results tok = some sig ∨
    ∃ ds, sig.score = 100 + calculate_final_score st ds tok := by
  obtain ⟨tk, lp, od, cv, b5, s5, now, f⟩ := tick
  unfold processTick at h
  rcases tk with _ | tk
  · exact Or.inl h
  rcases lp with _ | lp
  · exact Or.inl h
  rcases od with _ | od
  · exact Or.inl h
  rcases cv with _ | cv
  · exact Or.inl h
  unfold processValidTick at h
  dsimp only at h
  split at h
  · exact Or.inl h
  split at h
  · exact Or.inl h
  split at h
  · by_cases htk : tok = tk
    · subst htk; simp [popMap] at h
    · left; simpa [popMap, htk] using h
  split at h
  · split at h <;> exact Or.inl h
  · split at h
    · split at h
      · split at h <;> exact Or.inl h
      · split at h
        · by_cases htk : tok = tk
          · subst htk
            simp only [setMap, if_pos, ite_true, if_true] at h
            injection h with h
            subst h
            exact Or.inr ⟨_, rfl⟩
          · left
            simp only [setMap, htk, if_false, ite_false] at h
            split at h <;> exact h
        · by_cases htk : tok = tk
          · subst htk; simp [popMap] at h
          · left
            simp only [popMap, htk, if_false, ite_false] at h
            split at h <;> exact h
    · exact Or.inl h

theorem calculate_final_score_mem (st : Settings) (ds : ℕ → Option (List (ℕ × Bar)))
    (tok : ℕ) :
    calculate_final_score st ds tok ∈ ([0, 20, 40, 60, 80, 100] : List ℤ) := by
  unfold calculate_final_score
  split
  · decide
  split
  · decide
  dsimp only
  split
  · decide
  split
  · split_ifs <;> decide
  · decide

theorem calculate_final_score_nonneg (st : Settings) (ds : ℕ → Option (List (ℕ × Bar)))
    (tok : ℕ) :
    0 ≤ calculate_final_score st ds tok := by
  have h := calculate_final_score_mem st ds tok
  simp only [List.mem_cons, List.mem_singleton, List.not_mem_nil, or_false] at h
  rcases h with h | h | h | h | h | h <;> rw [h] <;> decide

theorem applyTickToDf_inv (df : List (ℕ × Bar)) (ts : ℕ) (p cv : ℚ)
    (h : ∀ r ∈ df, barInv r.2) : ∀ r ∈ applyTickToDf df ts p cv, barInv r.2 := by
  intro r hr
  unfold applyTickToDf at hr
  split at hr
  · unfold dfUpdate at hr
    rcases List.mem_map.1 hr with ⟨r0, hr0, hEq⟩
    have h0 := h r0 hr0
    by_cases hts : r0.1 = ts
    · rw [if_pos hts] at hEq
      subst hEq
      obtain ⟨h1, h2, h3⟩ := h0
      refine ⟨le_min (le_trans (min_le_left _ _) (le_trans h1 (min_le_left _ _)))
          (min_le_right _ _), max_le ?_ ?_, ?_⟩
      · exact le_trans (le_trans (le_max_left _ _) h2) (le_max_left _ _)
      · exact le_max_right _ _
      · exact add_nonneg h3 (le_max_right _ _)
    · rw [if_neg hts] at hEq
      subst hEq
      exact h0
  · rcases List.mem_append.1 hr with h1 | h1
    · exact h r h1
    · rcases List.mem_singleton.1 h1 with rfl
      refine ⟨by simp, by simp, le_max_right _ _⟩

theorem applyTicks_inv (ticks : List (ℕ × ℚ × ℚ)) (df : List (ℕ × Bar))
    (h : ∀ r ∈ df, barInv r.2) : ∀ r ∈ applyTicks df ticks, barInv r.2 := by
  induction ticks generalizing df with
  | nil => exact h
  | cons t ts ih =>
      exact ih _ (applyTickToDf_inv df t.1 t.2.1 t.2.2 h)


/-! ### The claims -/

/-- The code's nested-if breakout test is exactly the specified
disjunction. -/
theorem is_breakout_iff (bias : Option String) (price : ℚ) (orb : OpeningRange) :
    is_breakout bias price orb = true ↔
      (bias = some "Bullish" ∧ price > orb.high) ∨
      (bias = some "Bearish" ∧ price < orb.low) := by
  unfold is_breakout
  split_ifs <;> simp_all

/-- C1: for a tick of an instrument whose opening range is closed (the
range exists and the window is over), the tick is a breakout iff the bias
is Bullish and the price exceeds the range high, or the bias is Bearish
and the price is below the range low — any other bias never breaks out;
on breakout the instrument's Signal is created/overwritten with score =
100 plus the confirmation score, on no breakout the Signal is removed. -/
theorem C1_breakout_rule (st : Settings) (s : EngineState) (tok : ℕ)
    (ltp od cv : ℚ) (b5 s5 : List (Option ℚ)) (now : ℕ) (f : Option (List (ℚ × ℚ)))
    (orb : OpeningRange)
    (hidx : st.INDEX_TOKENS tok = none)
    (hbb : safe_get_best_price b5 ≠ 0) (hba : safe_get_best_price s5 ≠ 0)
    (hsp : ¬ spread_percentage (safe_get_best_price b5 / 100) (safe_get_best_price s5 / 100)
      (ltp / 100) > 0.5)
    (hwin : opening_range_end ≤ now % 1440)
    (horb : s.opening_ranges tok = some orb) :
    (is_breakout ((st.TOKEN_MAP tok).bind (fun i => i.bias)) (ltp / 100) orb = true ↔
      ((st.TOKEN_MAP tok).bind (fun i => i.bias) = some "Bullish" ∧ ltp / 100 > orb.high) ∨
      ((st.TOKEN_MAP tok).bind (fun i => i.bias) = some "Bearish" ∧ ltp / 100 < orb.low)) ∧
    (is_breakout ((st.TOKEN_MAP tok).bind (fun i => i.bias)) (ltp / 100) orb = true →
      (processTick st s ⟨some tok, some ltp, some od, some cv, b5, s5, now, f⟩).scan_results
          tok =
        some { symbol := (st.TOKEN_MAP tok).bind (fun i => i.symbol),
               score := 100 + calculate_final_score st
                 (aggState s tok now (ltp / 100) cv).data_store tok,
               price := ltp / 100,
               bias := (st.TOKEN_MAP tok).bind (fun i => i.bias) }) ∧
    (is_breakout ((st.TOKEN_MAP tok).bind (fun i => i.bias)) (ltp / 100) orb = false →
      (processTick st s ⟨some tok, some ltp, some od, some cv, b5, s5, now, f⟩).scan_results
          tok =
        none) := by
  refine ⟨is_breakout_iff _ _ _, ?_, ?_⟩
  · intro hB
    rw [postOrb_eval st s tok ltp od cv b5 s5 now f orb hidx hbb hba hsp hwin horb]
    simp [hB, setMap]
  · intro hB
    rw [postOrb_eval st s tok ltp od cv b5 s5 now f orb hidx hbb hba hsp hwin horb]
    simp [hB, popMap]

/-- C1 witness: a concrete Bullish breakout tick stores the breakout
signal. -/
theorem C1_breakout_rule_witness :
    (processTick stX sW1 tW1).scan_results 1 =
      some { symbol := (stX.TOKEN_MAP 1).bind (fun i => i.symbol),
             score := 100 + calculate_final_score stX
               (aggState sW1 1 600 (10500 / 100) 10).data_store 1,
             price := 10500 / 100,
             bias := (stX.TOKEN_MAP 1).bind (fun i => i.bias) } := by
  refine (C1_breakout_rule stX sW1 1 10500 10000 10 [some 10490] [some 10500] 600 none
    ⟨100, 95⟩ rfl ?_ ?_ ?_ (by decide) rfl).2.1 ?_
  · norm_num [safe_get_best_price]
  · norm_num [safe_get_best_price]
  · norm_num [spread_percentage, safe_get_best_price]
  · norm_num [is_breakout, stX]

/-- C2: every bar produced by folding any tick sequence into an empty bar
store satisfies low ≤ min(open, close), max(open, close) ≤ high and
volume ≥ 0 — the per-minute volume delta is clamped at zero, so a
decreasing cumulative volume never drives a bar volume negative. -/
theorem C2_bar_invariants (ticks : List (ℕ × ℚ × ℚ)) :
    ∀ r ∈ applyTicks [] ticks,
      r.2.low ≤ min r.2.open' r.2.close ∧ max r.2.open' r.2.close ≤ r.2.high ∧
        0 ≤ r.2.volume :=
  applyTicks_inv ticks [] (fun r hr => absurd hr (List.not_mem_nil r))

/-- C2 witness: the two `ticks0` ticks, whose cumulative volume drops
from 50 to 30, produce the single bar `barW`, and it satisfies the
invariants. -/
theorem C2_bar_invariants_witness :
    barW.low ≤ min barW.open' barW.close ∧ max barW.open' barW.close ≤ barW.high ∧
      0 ≤ barW.volume :=
  C2_bar_invariants ticks0 (0, barW) (by
    norm_num [applyTicks, applyTickToDf, dfContains, dfUpdate, dfLastLastVolume,
      ticks0, barW, max_def, min_def])

/-- C8: a tick missing any required field (token, last traded price,
day's open, or cumulative volume) is dropped: the engine state is exactly
unchanged. -/
theorem C8_malformed_tick_dropped (st : Settings) (s : EngineState) (tick : Tick)
    (h : tick.token = none ∨ tick.last_traded_price = none ∨
      tick.open_price_of_the_day = none ∨ tick.volume_trade_for_the_day = none) :
    processTick st s tick = s := by
  obtain ⟨tk, lp, od, cv, b5, s5, now, f⟩ := tick
  dsimp only at h
  rcases h with h | h | h | h
  · subst h; rfl
  · subst h
    rcases tk with _ | tk <;> rfl
  · subst h
    rcases tk with _ | tk
    · rfl
    · rcases lp with _ | lp <;> rfl
  · subst h
    rcases tk with _ | tk
    · rfl
    · rcases lp with _ | lp
      · rfl
      · rcases od with _ | od <;> rfl

/-- C8 witness: the malformed tick `tBad` leaves the initial state
untouched. -/
theorem C8_malformed_tick_dropped_witness : processTick stX initState tBad = initState :=
  C8_malformed_tick_dropped stX initState tBad (Or.inr (Or.inl rfl))

/-- C9: scoring is deterministic — it depends only on the token's bar
series and its `TOKEN_MAP` entry, not on any other engine state or
clock. -/
theorem C9_scoring_deterministic (st1 st2 : Settings)
    (ds1 ds2 : ℕ → Option (List (ℕ × Bar))) (tok : ℕ)
    (hds : ds1 tok = ds2 tok)
    (hbias : (st1.TOKEN_MAP tok).bind (fun i => i.bias) =
      (st2.TOKEN_MAP tok).bind (fun i => i.bias)) :
    calculate_final_score st1 ds1 tok = calculate_final_score st2 ds2 tok := by
  unfold calculate_final_score
  rw [hds]
  simp only [hbias]

/-- C9 witness: two stores that agree at token 1 but differ elsewhere
give the same score. -/
theorem C9_scoring_deterministic_witness :
    calculate_final_score stX dsA 1 = calculate_final_score stX dsB 1 :=
  C9_scoring_deterministic stX stX dsA dsB 1 rfl rfl

/-- C3: once a token's opening range exists and the window is over (every
later tick of the session carries a wall-clock time at or after the
window end), processing any tick leaves that token's opening range
exactly as it was. -/
theorem C3_closed_range_immutable (st : Settings) (s : EngineState) (tick : Tick)
    (tok : ℕ) (orb : OpeningRange)
    (horb : s.opening_ranges tok = some orb)
    (ht : tick.token = some tok → opening_range_end ≤ tick.now % 1440) :
    (processTick st s tick).opening_ranges tok = some orb := by
  rcases opening_ranges_cases st s tick tok with h | ⟨h1, h2⟩
  · rw [h, horb]
  · rcases h2 with h2 | h2
    · have := ht h1
      omega
    · rw [horb] at h2
      simp at h2

/-- C3 witness: a post-window breakout tick does not move the closed
range {100, 95}. -/
theorem C3_closed_range_immutable_witness :
    (processTick stX sW1 tW1).opening_ranges 1 = some ⟨100, 95⟩ :=
  C3_closed_range_immutable stX sW1 tW1 1 ⟨100, 95⟩ rfl (fun _ => by decide)

/-- C4: the confirmation score always lies in {0, 20, 40, 60, 80, 100}
(the additive 40/40/20 combination), and it is 0 whenever the token's
store has fewer than 30 bars or fewer than 2 rows keep every indicator
defined. -/
theorem C4_confirmation_score_range (st : Settings)
    (ds : ℕ → Option (List (ℕ × Bar))) (tok : ℕ) :
    calculate_final_score st ds tok ∈ ([0, 20, 40, 60, 80, 100] : List ℤ) ∧
    (∀ df, ds tok = some df →
      df.length < 30 ∨ (indicator_rows df).length < 2 →
      calculate_final_score st ds tok = 0) := by
  refine ⟨calculate_final_score_mem st ds tok, ?_⟩
  intro df hdf hcase
  unfold calculate_final_score
  split
  · rfl
  · next df' heq =>
      rw [hdf] at heq
      injection heq with heq
      subst heq
      rcases hcase with h | h
      · rw [if_pos h]
      · by_cases h30 : df.length < 30
        · rw [if_pos h30]
        · rw [if_neg h30]
          dsimp only
          rw [if_pos h]

/-- C4 witness: at the empty DataFrame the score is 0 and in range. -/
theorem C4_confirmation_score_range_witness :
    calculate_final_score stX dsA 1 ∈ ([0, 20, 40, 60, 80, 100] : List ℤ) ∧
    calculate_final_score stX dsA 1 = 0 :=
  ⟨(C4_confirmation_score_range stX dsA 1).1,
   (C4_confirmation_score_range stX dsA 1).2 [] rfl (Or.inl (by decide))⟩

/-- C5: a tick whose spread exceeds the 0.5 percent threshold removes the
token's Signal and skips breakout evaluation (opening ranges and index
data are untouched); the gate is per-tick — any later tick with an
acceptable spread and a qualifying breakout immediately stores a Signal
again. -/
theorem C5_spread_gate_per_tick (st : Settings) (s : EngineState) (tok : ℕ)
    (ltp od cv : ℚ) (b5 s5 : List (Option ℚ)) (now : ℕ) (f : Option (List (ℚ × ℚ)))
    (hidx : st.INDEX_TOKENS tok = none)
    (hbb : safe_get_best_price b5 ≠ 0) (hba : safe_get_best_price s5 ≠ 0)
    (hsp : spread_percentage (safe_get_best_price b5 / 100) (safe_get_best_price s5 / 100)
      (ltp / 100) > 0.5) :
    (processTick st s ⟨some tok, some ltp, some od, some cv, b5, s5, now, f⟩).scan_results
        tok = none ∧
    (processTick st s ⟨some tok, some ltp, some od, some cv, b5, s5, now, f⟩).opening_ranges =
      s.opening_ranges ∧
    (processTick st s ⟨some tok, some ltp, some od, some cv, b5, s5, now, f⟩).index_data =
      s.index_data ∧
    (∀ (ltp2 od2 cv2 : ℚ) (c5 d5 : List (Option ℚ)) (now2 : ℕ)
      (f2 : Option (List (ℚ × ℚ))) (orb : OpeningRange),
      safe_get_best_price c5 ≠ 0 → safe_get_best_price d5 ≠ 0 →
      ¬ spread_percentage (safe_get_best_price c5 / 100) (safe_get_best_price d5 / 100)
        (ltp2 / 100) > 0.5 →
      opening_range_end ≤ now2 % 1440 →
      s.opening_ranges tok = some orb →
      is_breakout ((st.TOKEN_MAP tok).bind (fun i => i.bias)) (ltp2 / 100) orb = true →
      ∃ sig : Signal,
        (processTick st
            (processTick st s ⟨some tok, some ltp, some od, some cv, b5, s5, now, f⟩)
            ⟨some tok, some ltp2, some od2, some cv2, c5, d5, now2, f2⟩).scan_results tok =
          some sig) := by
  have hgate := spread_gate_eval st s tok ltp od cv b5 s5 now f hidx hbb hba hsp
  refine ⟨by rw [hgate]; simp [popMap], by rw [hgate]; rfl, by rw [hgate]; rfl, ?_⟩
  intro ltp2 od2 cv2 c5 d5 now2 f2 orb hbb2 hba2 hsp2 hwin2 horb2 hB
  rw [hgate]
  rw [postOrb_eval st
    { aggState s tok now (ltp / 100) cv with scan_results := popMap s.scan_results tok }
    tok ltp2 od2 cv2 c5 d5 now2 f2 orb hidx hbb2 hba2 hsp2 hwin2
    (show ({ aggState s tok now (ltp / 100) cv with
      scan_results := popMap s.scan_results tok } : EngineState).opening_ranges tok =
      some orb from horb2)]
  simp only [hB, ite_true, if_true]
  exact ⟨_, setMap_same _ _ _⟩

/-- C5 witness: the wide-spread tick `tWide` clears the signal and a
following tight-spread breakout tick `tW1` restores one. -/
theorem C5_spread_gate_per_tick_witness :
    (processTick stX sW1 tWide).scan_results 1 = none ∧
    (∃ sig : Signal, (processTick stX (processTick stX sW1 tWide) tW1).scan_results 1 =
      some sig) := by
  have h := C5_spread_gate_per_tick stX sW1 1 10500 10000 10 [some 10000] [some 10200]
    600 none rfl (by norm_num [safe_get_best_price]) (by norm_num [safe_get_best_price])
    (by norm_num [spread_percentage, safe_get_best_price])
  refine ⟨h.1, h.2.2.2 10500 10000 10 [some 10490] [some 10500] 600 none ⟨100, 95⟩
    ?_ ?_ ?_ (by decide) rfl ?_⟩
  · norm_num [safe_get_best_price]
  · norm_num [safe_get_best_price]
  · norm_num [spread_percentage, safe_get_best_price]
  · norm_num [is_breakout, stX]

/-- C6 (amended): while the opening window is open, a tick that passes
the required-field, book-availability and spread gates widens the token's
opening range — seeding {price, price} when no range exists yet,
otherwise extending to {max(high, price), min(low, price)}.  (As stated
the claim is false: a tick gated out by the book or spread filter is
processed in-window yet leaves the range unchanged — see
`C6_counterexample` — so the closed range is the max/min over the
in-window prices of the gate-passing ticks only.) -/
theorem C6_window_widen (st : Settings) (s : EngineState) (tok : ℕ)
    (ltp od cv : ℚ) (b5 s5 : List (Option ℚ)) (now : ℕ) (f : Option (List (ℚ × ℚ)))
    (hidx : st.INDEX_TOKENS tok = none)
    (hbb : safe_get_best_price b5 ≠ 0) (hba : safe_get_best_price s5 ≠ 0)
    (hsp : ¬ spread_percentage (safe_get_best_price b5 / 100) (safe_get_best_price s5 / 100)
      (ltp / 100) > 0.5)
    (hwin : opening_range_start ≤ now % 1440 ∧ now % 1440 < opening_range_end) :
    (processTick st s ⟨some tok, some ltp, some od, some cv, b5, s5, now, f⟩).opening_ranges
        tok =
      some (match s.opening_ranges tok with
            | none => ⟨ltp / 100, ltp / 100⟩
            | some orb => ⟨max orb.high (ltp / 100), min orb.low (ltp / 100)⟩) := by
  rcases horb : s.opening_ranges tok with _ | orb
  · rw [window_seed_eval st s tok ltp od cv b5 s5 now f hidx hbb hba hsp hwin horb]
    simp [setMap]
  · rw [window_widen_eval st s tok ltp od cv b5 s5 now f orb hidx hbb hba hsp hwin horb]
    simp [setMap]

/-- C6 witness: a tight-spread in-window tick at price 105 widens the
collecting range {100, 100} to {105, 100}. -/
theorem C6_window_widen_witness :
    (processTick stX sC6 tC6ok).opening_ranges 1 =
      some ⟨max 100 (10500 / 100), min 100 (10500 / 100)⟩ := by
  have h := C6_window_widen stX sC6 1 10500 10000 10 [some 10490] [some 10500] 556 none
    rfl (by norm_num [safe_get_best_price]) (by norm_num [safe_get_best_price])
    (by norm_num [spread_percentage, safe_get_best_price]) (by decide)
  simpa [sC6, initState] using h

/-- C6 counterexample: an in-window tick at price 105 whose spread is 1.9
percent is gated out before the range update, so the collecting range
{100, 100} stays {100, 100} instead of widening to
{max(100, 105), min(100, 105)} as the claim requires of every in-window
tick. -/
theorem C6_counterexample :
    (processTick stX sC6 tC6).opening_ranges 1 = some ⟨100, 100⟩ ∧
    (processTick stX sC6 tC6).opening_ranges 1 ≠
      some ⟨max 100 (10500 / 100), min 100 (10500 / 100)⟩ := by
  have h : processTick stX sC6 tC6 =
      { aggState sC6 1 556 (10500 / 100) 10 with
        scan_results := popMap sC6.scan_results 1 } :=
    spread_gate_eval stX sC6 1 10500 10000 10 [some 10000] [some 10200] 556 none rfl
      (by norm_num [safe_get_best_price]) (by norm_num [safe_get_best_price])
      (by norm_num [spread_percentage, safe_get_best_price])
  rw [h]
  constructor
  · show (aggState sC6 1 556 (10500 / 100) 10).opening_ranges 1 = some ⟨100, 100⟩
    simp [aggState, sC6, initState]
  · show (aggState sC6 1 556 (10500 / 100) 10).opening_ranges 1 ≠ _
    simp only [aggState, sC6, initState]
    norm_num

/-- C7 (amended): when the retroactive fetch fails (no response or an
empty candle list), the opening range is installed as the degenerate band
{day open, day open}: the instrument is never left undefined and stays
eligible for breakout checks, but the band has zero width — its high is
not strictly above the day's open and its low is not strictly below it
(see `C7_counterexample`). -/
theorem C7_retro_fallback (st : Settings) (s : EngineState) (tok : ℕ)
    (ltp od cv : ℚ) (b5 s5 : List (Option ℚ)) (now : ℕ) (f : Option (List (ℚ × ℚ)))
    (hidx : st.INDEX_TOKENS tok = none)
    (hbb : safe_get_best_price b5 ≠ 0) (hba : safe_get_best_price s5 ≠ 0)
    (hsp : ¬ spread_percentage (safe_get_best_price b5 / 100) (safe_get_best_price s5 / 100)
      (ltp / 100) > 0.5)
    (hwin : opening_range_end ≤ now % 1440)
    (horb : s.opening_ranges tok = none)
    (hfail : f = none ∨ f = some []) :
    (processTick st s ⟨some tok, some ltp, some od, some cv, b5, s5, now, f⟩).opening_ranges
        tok =
      some ⟨od / 100, od / 100⟩ := by
  have hretro : get_opening_range_retroactively f (od / 100) = ⟨od / 100, od / 100⟩ := by
    rcases hfail with rfl | rfl <;> rfl
  rw [retro_eval st s tok ltp od cv b5 s5 now f hidx hbb hba hsp hwin horb]
  simp only [hretro]
  split <;> simp [setMap]

/-- C7 witness: a post-window tick for a token with no range and a failed
fetch installs the degenerate band around the day's open 100. -/
theorem C7_retro_fallback_witness :
    (processTick stX initState tW1).opening_ranges 1 = some ⟨10000 / 100, 10000 / 100⟩ :=
  C7_retro_fallback stX initState 1 10500 10000 10 [some 10490] [some 10500] 600 none
    rfl (by norm_num [safe_get_best_price]) (by norm_num [safe_get_best_price])
    (by norm_num [spread_percentage, safe_get_best_price]) (by decide) rfl (Or.inl rfl)

/-- C7 counterexample: with day open 100 and a failed fetch the installed
range is exactly {100, 100}; no strict band around the open exists, so
the claimed "high strictly above and low strictly below the open" is
false. -/
theorem C7_counterexample :
    (processTick stX initState tW1).opening_ranges 1 = some ⟨100, 100⟩ ∧
    ¬ (∃ orb : OpeningRange,
        (processTick stX initState tW1).opening_ranges 1 = some orb ∧
        orb.low < 100 ∧ 100 < orb.high) := by
  have hretro : get_opening_range_retroactively none ((10000 : ℚ) / 100) =
      ⟨10000 / 100, 10000 / 100⟩ := rfl
  have h : (processTick stX initState tW1).opening_ranges 1 = some ⟨100, 100⟩ := by
    have h2 : processTick stX initState tW1 = _ :=
      retro_eval stX initState 1 10500 10000 10 [some 10490] [some 10500] 600 none rfl
        (by norm_num [safe_get_best_price]) (by norm_num [safe_get_best_price])
        (by norm_num [spread_percentage, safe_get_best_price]) (by decide) rfl
    rw [h2]
    simp only [hretro]
    split <;> simp [setMap] <;> norm_num
  refine ⟨h, ?_⟩
  rintro ⟨orb, horb, h1, h2⟩
  rw [h] at horb
  injection horb with horb
  rw [← horb] at h2
  norm_num at h2

/-- One step preserves the signal-score invariant: any signal present
after the step was either present before or was just written with score
100 plus a confirmation score. -/
theorem scan_inv_step (st : Settings) (s : EngineState) (tick : Tick)
    (h : ∀ t g, s.scan_results t = some g → 100 ≤ g.score) :
    ∀ t g, (processTick st s tick).scan_results t = some g → 100 ≤ g.score := by
  intro t g hg
  rcases scan_results_cases st s tick t g hg with h1 | ⟨ds, h2⟩
  · exact h t g h1
  · rw [h2]
    have := calculate_final_score_nonneg st ds t
    omega

/-- Running any tick list preserves the signal-score invariant. -/
theorem scan_inv_run (st : Settings) (ticks : List Tick) :
    ∀ s : EngineState, (∀ t g, s.scan_results t = some g → 100 ≤ g.score) →
    ∀ t g, (processTicks st s ticks).scan_results t = some g → 100 ≤ g.score := by
  induction ticks with
  | nil => exact fun s h => h
  | cons a l ih =>
      intro s h
      exact ih (processTick st s a) (scan_inv_step st s a h)

/-- C10: every signal held in `scan_results` after any run of the loop
from the initial state has score at least 100 (the breakout base score),
so the broadcaster's positive-score filter of `main.py` never excludes a
stored signal and no breakout-less signal is ever published. -/
theorem C10_published_scores (st : Settings) (ticks : List Tick) (tok : ℕ) (sig : Signal)
    (h : (processTicks st initState ticks).scan_results tok = some sig) :
    100 ≤ sig.score ∧ score_filter sig = true := by
  have hinv := scan_inv_run st ticks initState
    (fun t g hg => by simp [initState] at hg) tok sig h
  refine ⟨hinv, ?_⟩
  simp only [score_filter, decide_eq_true_eq]
  omega

/-- C10 witness: the single breakout tick `tW1` stores `sigW` with score
100, which passes the broadcaster filter. -/
theorem C10_published_scores_witness : 100 ≤ sigW.score ∧ score_filter sigW = true :=
  C10_published_scores stX [tW1] 1 sigW (by
    norm_num [processTicks, processTick, processValidTick, stX, tW1, sigW, initState,
      setMap, popMap, safe_get_best_price, aggState, applyTickToDf, dfLastLastVolume,
      dfContains, dfUpdate, get_opening_range_retroactively, calculate_final_score,
      opening_range_start, opening_range_end, spread_percentage, is_breakout,
      indicator_rows, sort_index, insertByKey, collectRows])

end Scanner
